import Mathlib

set_option maxRecDepth 100000

/-!
Shallow embedding of the resnap capture tool (src/main.rs): the remote
framebuffer acquisition steps (process resolution, maps-table address
location, skip-then-read capture) and the content-extraction pipeline
(threshold mask with UI exclusion zone, noise filter over contours,
bounding-box accumulation, padding/clamping, crop emission).

Pure data is modelled directly; remote command output is a parameter
(the list of process ids, each process's maps table, the raw memory
bytes); images are intensity functions Nat -> Nat -> Nat over pixel
coordinates.  Machine integers (u32/u64) are modelled as Nat: the only
wrap-relevant operations in the source are u32 saturating_sub (Nat
subtraction is exactly saturating) and additions far below 2^32 for the
constants in play, so no explicit modulus is needed.
-/

namespace Resnap

/-- Frame width constant (main.rs line 90). -/
def width : Nat := 1872

/-- Frame height constant (main.rs line 91). -/
def height : Nat := 1404

/-- Bytes per pixel for the gray16 pixel format (main.rs line 99). -/
def bytesPerPixel : Nat := 2

/-- One frame's worth of bytes, `width * height * bytes_per_pixel` (main.rs line 101). -/
def windowBytes : Nat := width * height * bytesPerPixel

/-- The fixed skip correction added to the located base address (main.rs line 83, the `+ 7`). -/
def skipCorrection : Nat := 7

/-- Luminance cutoff isolating handwriting (main.rs line 164). -/
def threshold : Nat := 200

/-- UI exclusion zone bound on x (main.rs line 167). -/
def uiExcludeX : Nat := 200

/-- UI exclusion zone bound on y (main.rs line 168). -/
def uiExcludeY : Nat := 200

/-- Noise filter bound on contour point count (main.rs line 202). -/
def minContourSize : Nat := 100

/-- Padding added around the accumulated bounding box (main.rs line 246). -/
def padding : Nat := 50

/-- The backing device path of the target mapping (main.rs lines 35, 48, 69). -/
def devicePath : String := "/dev/fb0"

/-- One line of a process's memory-mapping table.  `addr` is the
leading text of the line, beginning with the hexadecimal start offset
and then the range separator (what `sed` later strips from); `device`
is the backing path field of the same line (what `grep` matches on). -/
structure MapsLine where
  addr : List Char
  device : String
deriving DecidableEq

/-- Whether a maps line is a hit for the `grep` pattern: its backing
path is the target device path. -/
def matchesDevice (l : MapsLine) : Bool := l.device == devicePath

/-- Index of the last line matching the device path, if any. -/
def lastMatchIdx : List MapsLine → Option Nat
  | [] => none
  | l :: ls =>
    match lastMatchIdx ls with
    | some j => some (j + 1)
    | none => if matchesDevice l then some 0 else none

/-- The line produced by `grep -C1 devicePath maps | tail -n1`
(main.rs lines 68-78): grep with one line of trailing context ends its
output one line past the last match when such a line exists, otherwise
at the last match itself; tail -n1 keeps exactly that line. -/
def contextTailLine (lines : List MapsLine) : Option MapsLine :=
  match lastMatchIdx lines with
  | none => none
  | some j => lines.get? (min (j + 1) (lines.length - 1))

/-- Hexadecimal digit value, as accepted by u64::from_str_radix(_, 16). -/
def hexDigit (c : Char) : Option Nat :=
  if ('0' ≤ c ∧ c ≤ '9') then some (c.toNat - '0'.toNat)
  else if ('a' ≤ c ∧ c ≤ 'f') then some (c.toNat - 'a'.toNat + 10)
  else if ('A' ≤ c ∧ c ≤ 'F') then some (c.toNat - 'A'.toNat + 10)
  else none

/-- Parse of a hexadecimal numeral, as u64::from_str_radix(s, 16)
(main.rs line 83): empty input or a non-hex character is an error. -/
def parseHex (s : List Char) : Option Nat :=
  if s.isEmpty then none
  else s.foldl (fun acc c => acc.bind (fun n => (hexDigit c).map (fun d => 16 * n + d))) (some 0)

/-- The sed step of the locator pipeline (main.rs line 69): strip the
line from the first range separator on, keeping the leading field. -/
def sedAddrField (l : MapsLine) : List Char := l.addr.takeWhile (fun c => c ≠ '-')

/-- The located framebuffer base address: the leading hexadecimal field
of the grep/tail-selected line (main.rs lines 68-83). -/
def locatedStart (lines : List MapsLine) : Option Nat :=
  (contextTailLine lines).bind (fun l => parseHex (sedAddrField l))

/-- The corrected capture offset, located address plus the fixed
correction (main.rs line 83). -/
def skipBytes (addr : Nat) : Nat := addr + skipCorrection

/-- Failure modes of the process resolution stage (main.rs lines 27, 63). -/
inductive ResolveError where
  | processNotFound
  | mappingNotFound
deriving DecidableEq

/-- Whether a candidate process id has a maps entry for the device path
(the emptiness test of the remote grep output, main.rs lines 39, 52). -/
def hasMapping (maps : String → List MapsLine) (p : String) : Bool :=
  (maps p).any matchesDevice

/-- Process resolution (main.rs lines 18-65): take the first pid from
the pidof listing; empty listing is a failure.  If the first pid lacks
the device mapping, rescan the whole listing in order and take the
first pid that has it; if none does, fail. -/
def resolvePid (maps : String → List MapsLine) (pids : List String) : Except ResolveError String :=
  match pids with
  | [] => Except.error ResolveError.processNotFound
  | first :: rest =>
    if hasMapping maps first then Except.ok first
    else
      match (first :: rest).find? (hasMapping maps) with
      | some p => Except.ok p
      | none => Except.error ResolveError.mappingNotFound

/-- The resolver as the spec words it (spec 4.1): no candidates means
ProcessNotFound; otherwise the first candidate in listing order with
the required mapping, and MappingNotFound when there is none. -/
def resolveSpec (maps : String → List MapsLine) (pids : List String) : Except ResolveError String :=
  if pids.isEmpty then Except.error ResolveError.processNotFound
  else
    match pids.find? (hasMapping maps) with
    | some p => Except.ok p
    | none => Except.error ResolveError.mappingNotFound

/-- The dd capture (main.rs lines 108-119): skip `skipBytes addr` bytes
of the process memory image, then read one block of `windowBytes`
bytes; a short source yields a short capture. -/
def ddCapture (mem : List Nat) (addr : Nat) : List Nat :=
  (mem.drop (skipBytes addr)).take windowBytes

/-- What follows the capture: either the captured bytes are handed to
the external decoder, or the IncompleteCapture failure of the spec. -/
inductive PostCapture where
  | decode (input : List Nat)
  | incompleteCapture
deriving DecidableEq

/-- The post-capture step of the code (main.rs lines 121-148): the
captured bytes, whatever their length, are written to the temp file and
ffmpeg is invoked on that file; there is no length check anywhere. -/
def postCapture (captured : List Nat) : PostCapture := PostCapture.decode captured

/-- The binarization closure (main.rs lines 170-180): the exclusion
zone is forced to background 255; below-threshold pixels are ink 0;
the rest are background 255. -/
def binaryPixel (gray : Nat → Nat → Nat) (x y : Nat) : Nat :=
  if x < uiExcludeX ∧ y < uiExcludeY then 255
  else if gray x y < threshold then 0 else 255

/-- Whether the binary mask marks a pixel as ink (value 0). -/
def isInk (gray : Nat → Nat → Nat) (x y : Nat) : Bool := binaryPixel gray x y == 0

/-- A contour point; imageproc uses signed i32 coordinates (main.rs line 183). -/
structure Point where
  x : Int
  y : Int
deriving DecidableEq

/-- A contour (Region): its boundary points (main.rs line 183). -/
structure Contour where
  points : List Point
deriving DecidableEq

/-- Modelled from the spec: the contour extraction itself is performed
by the external imageproc library (main.rs line 183), whose
implementation is not part of this repository.  Spec 4.5 step 4 and
spec 9 contract it as connected-ink-region extraction over the binary
mask: every point of every returned Region is an in-range ink pixel of
the mask. -/
def validContours (gray : Nat → Nat → Nat) (w h : Nat) (cs : List Contour) : Prop :=
  ∀ c ∈ cs, ∀ p ∈ c.points,
    0 ≤ p.x ∧ 0 ≤ p.y ∧ p.x < (w : Int) ∧ p.y < (h : Int) ∧
    isInk gray p.x.toNat p.y.toNat = true

/-- The mutable bounding-box accumulator of the contour loop
(main.rs lines 192-199). -/
structure BBoxAcc where
  minX : Nat
  minY : Nat
  maxX : Nat
  maxY : Nat
  largeContours : Nat
deriving DecidableEq

/-- Initial accumulator values (main.rs lines 193-196): min_x = image
width, min_y = image height, max_x = 150, max_y = 0. -/
def initAcc (w h : Nat) : BBoxAcc := ⟨w, h, 150, 0, 0⟩

/-- The in-range guard on a contour point (main.rs lines 227-230):
x ≥ 0, y ≥ 0, x < image width, y < image height. -/
def inBounds (w h : Nat) (p : Point) : Bool :=
  decide (0 ≤ p.x ∧ 0 ≤ p.y ∧ p.x < (w : Int) ∧ p.y < (h : Int))

/-- One step of bounding-box accumulation (main.rs lines 226-237):
points failing the in-range guard are skipped; in-range points update
the four min/max fields. -/
def accumPoint (w h : Nat) (a : BBoxAcc) (p : Point) : BBoxAcc :=
  if inBounds w h p then
    { a with minX := min a.minX p.x.toNat, minY := min a.minY p.y.toNat,
             maxX := max a.maxX p.x.toNat, maxY := max a.maxY p.y.toNat }
  else a

/-- Processing of one contour (main.rs lines 204-238): contours with
fewer than minContourSize points are skipped entirely; otherwise the
large-contour counter is bumped and every point is accumulated. -/
def accumContour (w h : Nat) (a : BBoxAcc) (c : Contour) : BBoxAcc :=
  if c.points.length < minContourSize then a
  else c.points.foldl (accumPoint w h) { a with largeContours := a.largeContours + 1 }

/-- The whole contour loop (main.rs lines 204-238). -/
def accumAll (w h : Nat) (cs : List Contour) : BBoxAcc :=
  cs.foldl (accumContour w h) (initAcc w h)

/-- A bounding box after padding and clamping. -/
structure BBox where
  minX : Nat
  minY : Nat
  maxX : Nat
  maxY : Nat
deriving DecidableEq

/-- Padding and clamping of the accumulated box (main.rs lines 245-250):
saturating subtraction of the padding on the minima (Nat subtraction is
exactly u32 saturating_sub), addition of the padding on the maxima
clamped to width-1 and height-1. -/
def paddedBox (w h : Nat) (a : BBoxAcc) : BBox :=
  ⟨a.minX - padding, a.minY - padding,
   min (a.maxX + padding) (w - 1), min (a.maxY + padding) (h - 1)⟩

/-- The crop decision (main.rs line 253): a box is emitted only when
min_x < max_x, min_y < max_y and at least one large contour was seen;
otherwise the run ends with the no-significant-content message and no
file is written (`none` models the NoSignificantContent outcome). -/
def extractBox (w h : Nat) (cs : List Contour) : Option BBox :=
  let a := accumAll w h cs
  let b := paddedBox w h a
  if b.minX < b.maxX ∧ b.minY < b.maxY ∧ 0 < a.largeContours then some b else none

/-- The rectangle handed to crop_imm (main.rs lines 254-264): origin at
the box minima, extents max - min + 1. -/
structure CropRect where
  x0 : Nat
  y0 : Nat
  w : Nat
  h : Nat
deriving DecidableEq

/-- The crop call's rectangle for an emitted box (main.rs lines 255-264). -/
def emitCrop (b : BBox) : CropRect := ⟨b.minX, b.minY, b.maxX - b.minX + 1, b.maxY - b.minY + 1⟩

/-- The emitted crop rectangle of a run, when any (main.rs lines 252-279). -/
def emittedCrop (w h : Nat) (cs : List Contour) : Option CropRect :=
  (extractBox w h cs).map emitCrop

/-- A pixel of the cropped output: crop_imm is applied to the original
decoded image `img`, not the binarized one (main.rs line 264), so pixel
(i, j) of the crop is pixel (x0 + i, y0 + j) of the original. -/
def cropPixel (orig : Nat → Nat → Nat) (c : CropRect) (i j : Nat) : Nat :=
  orig (c.x0 + i) (c.y0 + j)

/-- Whether a contour passes the noise filter (main.rs line 208). -/
def survives (c : Contour) : Bool := !decide (c.points.length < minContourSize)

/-- All points that actually reach the accumulator: points of surviving
contours that pass the in-range guard, in processing order. -/
def keptPoints (w h : Nat) (cs : List Contour) : List Point :=
  (cs.filter survives).flatMap (fun c => c.points.filter (inBounds w h))

/-- The in-range points of one contour, as x coordinates cast to Nat. -/
def contourXs (w h : Nat) (c : Contour) : List Nat :=
  (c.points.filter (inBounds w h)).map (fun p => p.x.toNat)

/-- The in-range points of one contour, as y coordinates cast to Nat. -/
def contourYs (w h : Nat) (c : Contour) : List Nat :=
  (c.points.filter (inBounds w h)).map (fun p => p.y.toNat)

/-- x coordinates reaching the accumulator. -/
def keptXs (w h : Nat) (cs : List Contour) : List Nat :=
  (cs.filter survives).flatMap (contourXs w h)

/-- y coordinates reaching the accumulator. -/
def keptYs (w h : Nat) (cs : List Contour) : List Nat :=
  (cs.filter survives).flatMap (contourYs w h)

/-- The emitted box written out as the min/max reduction it performs:
minima folded from the initial values w and h, maxima folded from the
initial values 150 and 0, then padded and clamped. -/
def amendedBox (w h : Nat) (cs : List Contour) : BBox :=
  ⟨(keptXs w h cs).foldl min w - padding,
   (keptYs w h cs).foldl min h - padding,
   min ((keptXs w h cs).foldl max 150 + padding) (w - 1),
   min ((keptYs w h cs).foldl max 0 + padding) (h - 1)⟩

/-- The put_pixel targets of the contour visualization (main.rs lines
214-223): for each surviving contour, each point passing the same
in-range guard, cast to u32 coordinates. -/
def visWrites (w h : Nat) (cs : List Contour) : List (Nat × Nat) :=
  (keptPoints w h cs).map (fun p => (p.x.toNat, p.y.toNat))

/-- A 100-point contour entirely at x = 10, y in 100..199. -/
def cLeft : Contour := ⟨(List.range 100).map (fun i => ⟨10, 100 + (i : Int)⟩)⟩

/-- A 99-point contour. -/
def ex99 : Contour := ⟨(List.range 99).map (fun i => ⟨300, 100 + (i : Int)⟩)⟩

/-- A 101-point contour. -/
def ex101 : Contour := ⟨(List.range 101).map (fun i => ⟨300, 100 + (i : Int)⟩)⟩

/-- A 101-point contour containing the point (201, 201). -/
def c201 : Contour := ⟨Point.mk 201 201 :: (List.range 100).map (fun i => ⟨300 + (i : Int), 300⟩)⟩

/-- A maps table whose only device-path entry is followed by another line. -/
def exLines : List MapsLine :=
  [⟨"1000-2000".data, "/dev/fb0"⟩, ⟨"3000-4000".data, "[anon]"⟩]

theorem le_foldl_max (xs : List Nat) (i : Nat) : i ≤ xs.foldl max i := by
  induction xs generalizing i with
  | nil => exact le_refl i
  | cons x xs ih => exact le_trans (le_max_left i x) (ih (max i x))

theorem mem_le_foldl_max {x : Nat} (xs : List Nat) (i : Nat) (hx : x ∈ xs) :
    x ≤ xs.foldl max i := by
  induction xs generalizing i with
  | nil => cases hx
  | cons y ys ih =>
    rw [List.foldl_cons]
    rcases List.mem_cons.mp hx with h | h
    · subst h
      exact le_trans (le_max_right i x) (le_foldl_max ys (max i x))
    · exact ih (max i y) h

theorem foldl_accumPoint_eq (w h : Nat) (ps : List Point) (a : BBoxAcc) :
    ps.foldl (accumPoint w h) a =
      ⟨((ps.filter (inBounds w h)).map (fun p => p.x.toNat)).foldl min a.minX,
       ((ps.filter (inBounds w h)).map (fun p => p.y.toNat)).foldl min a.minY,
       ((ps.filter (inBounds w h)).map (fun p => p.x.toNat)).foldl max a.maxX,
       ((ps.filter (inBounds w h)).map (fun p => p.y.toNat)).foldl max a.maxY,
       a.largeContours⟩ := by
  induction ps generalizing a with
  | nil => rfl
  | cons p ps ih =>
    rw [List.foldl_cons, ih]
    by_cases hb : inBounds w h p = true
    · simp [accumPoint, hb, List.filter_cons]
    · simp [accumPoint, hb, List.filter_cons]

theorem foldl_accumContour_eq (w h : Nat) (cs : List Contour) (a : BBoxAcc) :
    cs.foldl (accumContour w h) a =
      ⟨(keptXs w h cs).foldl min a.minX, (keptYs w h cs).foldl min a.minY,
       (keptXs w h cs).foldl max a.maxX, (keptYs w h cs).foldl max a.maxY,
       a.largeContours + (cs.filter survives).length⟩ := by
  induction cs generalizing a with
  | nil => simp [keptXs, keptYs]
  | cons c cs ih =>
    rw [List.foldl_cons, ih]
    by_cases hs : c.points.length < minContourSize
    · have hsf : survives c = false := by simp [survives, hs]
      simp [keptXs, keptYs, List.filter_cons, hsf, accumContour, hs]
    · have hst : survives c = true := by simp [survives, hs]
      have hc : accumContour w h a c =
          ⟨(contourXs w h c).foldl min a.minX, (contourYs w h c).foldl min a.minY,
           (contourXs w h c).foldl max a.maxX, (contourYs w h c).foldl max a.maxY,
           a.largeContours + 1⟩ := by
        rw [accumContour, if_neg hs, foldl_accumPoint_eq]
        rfl
      rw [hc]
      simp only [keptXs, keptYs, List.filter_cons, hst, if_true, List.flatMap_cons,
        List.foldl_append, List.length_cons, BBoxAcc.mk.injEq, true_and]
      omega

theorem accumAll_eq (w h : Nat) (cs : List Contour) :
    accumAll w h cs =
      ⟨(keptXs w h cs).foldl min w, (keptYs w h cs).foldl min h,
       (keptXs w h cs).foldl max 150, (keptYs w h cs).foldl max 0,
       (cs.filter survives).length⟩ := by
  rw [accumAll, foldl_accumContour_eq]
  simp [initAcc]

theorem keptXs_eq_map (w h : Nat) (cs : List Contour) :
    keptXs w h cs = (keptPoints w h cs).map (fun p => p.x.toNat) := by
  rw [keptXs, keptPoints, List.map_flatMap]
  rfl

theorem keptYs_eq_map (w h : Nat) (cs : List Contour) :
    keptYs w h cs = (keptPoints w h cs).map (fun p => p.y.toNat) := by
  rw [keptYs, keptPoints, List.map_flatMap]
  rfl

theorem isInk_eq_true_iff (gray : Nat → Nat → Nat) (x y : Nat) :
    isInk gray x y = true ↔
      (gray x y < threshold ∧ ¬(x < uiExcludeX ∧ y < uiExcludeY)) := by
  rw [isInk, binaryPixel]
  by_cases hz : x < uiExcludeX ∧ y < uiExcludeY
  · simp [hz]
  · by_cases ht : gray x y < threshold
    · simp [hz, ht]
    · simp [hz, ht]

theorem extractBox_eq_some {w h : Nat} {cs : List Contour} {b : BBox}
    (hb : extractBox w h cs = some b) :
    b = paddedBox w h (accumAll w h cs) ∧
    (paddedBox w h (accumAll w h cs)).minX < (paddedBox w h (accumAll w h cs)).maxX ∧
    (paddedBox w h (accumAll w h cs)).minY < (paddedBox w h (accumAll w h cs)).maxY ∧
    0 < (accumAll w h cs).largeContours := by
  simp only [extractBox] at hb
  split at hb
  · rename_i hcond
    exact ⟨(Option.some.inj hb).symm, hcond.1, hcond.2.1, hcond.2.2⟩
  · exact absurd hb (by simp)

theorem lastMatchIdx_none (lines : List MapsLine)
    (h : ∀ k, (lines.get? k).any matchesDevice = false) :
    lastMatchIdx lines = none := by
  induction lines with
  | nil => rfl
  | cons l ls ih =>
    have h0 : matchesDevice l = false := by
      have := h 0
      simpa [Option.any] using this
    have htail : lastMatchIdx ls = none := ih (fun k => h (k + 1))
    simp [lastMatchIdx, htail, h0]

theorem lastMatchIdx_eq (lines : List MapsLine) (j : Nat)
    (hj : (lines.get? j).any matchesDevice = true)
    (hlast : ∀ k, j < k → (lines.get? k).any matchesDevice = false) :
    lastMatchIdx lines = some j := by
  induction lines generalizing j with
  | nil => simp [List.get?, Option.any] at hj
  | cons l ls ih =>
    cases j with
    | zero =>
      have h0 : matchesDevice l = true := by simpa [Option.any] using hj
      have hnone : lastMatchIdx ls = none :=
        lastMatchIdx_none ls (fun k => hlast (k + 1) (Nat.succ_pos k))
      simp [lastMatchIdx, hnone, h0]
    | succ j0 =>
      have hj0 : (ls.get? j0).any matchesDevice = true := hj
      have hlast0 : ∀ k, j0 < k → (ls.get? k).any matchesDevice = false := by
        intro k hk
        exact hlast (k + 1) (by omega)
      have := ih j0 hj0 hlast0
      simp [lastMatchIdx, this]

/-- Claim C6 (confirmed): the process resolver returns the first
candidate in listing order whose maps table has a device-path entry
(List.find? returns the first element satisfying the predicate), fails
with processNotFound when the listing is empty, and with
mappingNotFound when no candidate has the mapping; resolveSpec is the
spec's wording of exactly this behaviour, and the two agree on every
input. -/
theorem c6_resolver_first_match (maps : String → List MapsLine) (pids : List String) :
    resolvePid maps pids = resolveSpec maps pids := by
  cases pids with
  | nil => rfl
  | cons first rest =>
    by_cases hm : hasMapping maps first
    · simp [resolvePid, resolveSpec, List.find?, hm]
    · cases hfind : rest.find? (hasMapping maps) with
      | none => simp [resolvePid, resolveSpec, List.find?, hm, hfind]
      | some q => simp [resolvePid, resolveSpec, List.find?, hm, hfind]

/-- Claim C8 (confirmed): for a successfully parsed hexadecimal base
address a, the capture starts at byte offset a + 7 (the fixed skip
correction) and requests exactly width*height*bytesPerPixel =
1872*1404*2 bytes from that offset: byte i of the capture, for
i < windowBytes, is byte a + 7 + i of the process memory image, and the
capture never exceeds windowBytes bytes. -/
theorem c8_capture_offset (s : List Char) (a : Nat) (mem : List Nat)
    (hp : parseHex s = some a) :
    skipBytes a = a + 7 ∧ windowBytes = 1872 * 1404 * 2 ∧
    (∀ i, i < windowBytes → (ddCapture mem a).get? i = mem.get? (a + 7 + i)) ∧
    (ddCapture mem a).length ≤ windowBytes := by
  refine ⟨rfl, rfl, ?_, ?_⟩
  · intro i hi
    rw [ddCapture, List.get?_take hi, List.get?_drop]
    rfl
  · rw [ddCapture]
    exact List.length_take_le _ _

/-- Witness for claim C8 at a concrete parsed address and memory image. -/
theorem c8_witness :
    (ddCapture (List.range 300) 255).get? 0 = (List.range 300).get? (255 + 7 + 0) :=
  (c8_capture_offset ("ff".data) 255 (List.range 300) (by decide)).2.2.1 0 (by decide)

/-- Counterexample to claim C1: the empty capture has byte length 0,
different from width*height*bytes_per_pixel, yet the code proceeds to
decoding and passes the raw bytes to the decoder; no IncompleteCapture
check exists anywhere between the capture and the ffmpeg invocation. -/
theorem c1_counterexample :
    postCapture [] = PostCapture.decode [] ∧ ([] : List Nat).length ≠ windowBytes :=
  ⟨rfl, by decide⟩

/-- Claim C1 (amended): the code performs no length check on the
captured byte buffer: whatever the capture, including one truncated by
the memory image ending before the requested window, the bytes are
passed unchanged to the external decoder (so never zero-padded), and
the incompleteCapture outcome is never produced; a conversion failure
can surface only through the decoder's own exit status. -/
theorem c1_capture_passthrough (mem : List Nat) (a : Nat) :
    postCapture (ddCapture mem a) = PostCapture.decode (ddCapture mem a) ∧
    (∀ buf : List Nat, postCapture buf ≠ PostCapture.incompleteCapture) ∧
    (mem.length ≤ a + 7 → ddCapture mem a = []) := by
  refine ⟨rfl, fun buf => by simp [postCapture], fun hle => ?_⟩
  rw [ddCapture]
  have hdrop : mem.drop (skipBytes a) = [] := List.drop_eq_nil_of_le hle
  rw [hdrop]
  rfl

/-- Witness for claim C1 at a concrete one-byte memory image. -/
theorem c1_witness :
    postCapture (ddCapture [3] 0) = PostCapture.decode (ddCapture [3] 0) ∧
    ddCapture [3] 0 = [] :=
  ⟨(c1_capture_passthrough [3] 0).1, (c1_capture_passthrough [3] 0).2.2 (by decide)⟩

/-- Claim C2 (amended): when the maps table's last device-path match is
at index j, the locator parses the leading hexadecimal field (up to the
range separator) of line min(j+1, n-1): the line immediately after the
last matching entry when the match is not the final line, and the
matching entry itself only when it is the final line — not, in general,
the last matching entry (grep -C1 appends one line of trailing context
and tail -n1 keeps exactly that context line). -/
theorem c2_locator_after_last_match (lines : List MapsLine) (j : Nat)
    (hj : (lines.get? j).any matchesDevice = true)
    (hlast : ∀ k, j < k → (lines.get? k).any matchesDevice = false) :
    locatedStart lines =
      (lines.get? (min (j + 1) (lines.length - 1))).bind
        (fun l => parseHex (sedAddrField l)) := by
  rw [locatedStart, contextTailLine, lastMatchIdx_eq lines j hj hlast]

/-- Witness for claim C2 at a concrete two-line maps table whose only
match is its first line. -/
theorem c2_witness :
    locatedStart exLines =
      (exLines.get? (min (0 + 1) (exLines.length - 1))).bind
        (fun l => parseHex (sedAddrField l)) :=
  c2_locator_after_last_match exLines 0 (by decide)
    (by
      intro k hk
      cases k with
      | zero => omega
      | succ k0 =>
        cases k0 with
        | zero => decide
        | succ k1 => rfl)

/-- Counterexample to claim C2: a table whose single matching entry
(start 0x1000 = 4096) is followed by a non-matching line (start
0x3000 = 12288): the locator returns 12288, the following line's start,
not the matching entry's 4096. -/
theorem c2_counterexample :
    locatedStart exLines = some 12288 ∧
    (exLines.get? 0).any matchesDevice = true ∧
    (∀ k, 0 < k → (exLines.get? k).any matchesDevice = false) ∧
    ((exLines.get? 0).bind (fun l => parseHex (sedAddrField l))) = some 4096 ∧
    (12288 : Nat) ≠ 4096 := by
  refine ⟨by decide, by decide, ?_, by decide, by decide⟩
  intro k hk
  cases k with
  | zero => omega
  | succ k0 =>
    cases k0 with
    | zero => decide
    | succ k1 => rfl

/-- Claim C3 (amended): the noise filter discards a Region exactly when
its point count is strictly below the threshold 100: a 99-point contour
is excluded (the accumulator is left unchanged), while 100-point and
101-point contours are both included (counted as large contours). -/
theorem c3_noise_threshold_boundary (w h : Nat) (a : BBoxAcc) (c : Contour) :
    (c.points.length = 99 → accumContour w h a c = a) ∧
    (c.points.length = 100 →
      (accumContour w h a c).largeContours = a.largeContours + 1) ∧
    (c.points.length = 101 →
      (accumContour w h a c).largeContours = a.largeContours + 1) := by
  have hlarge : ∀ (ps : List Point) (b : BBoxAcc),
      (ps.foldl (accumPoint w h) b).largeContours = b.largeContours := by
    intro ps
    induction ps with
    | nil => intro b; rfl
    | cons p ps ih =>
      intro b
      rw [List.foldl_cons, ih]
      rw [accumPoint]
      split <;> rfl
  refine ⟨?_, ?_, ?_⟩ <;> intro hlen <;> rw [accumContour]
  · rw [if_pos (by rw [hlen]; decide)]
  · rw [if_neg (by rw [hlen]; decide), hlarge]
  · rw [if_neg (by rw [hlen]; decide), hlarge]

/-- Witness for claim C3 at concrete 99-, 100- and 101-point contours. -/
theorem c3_witness :
    accumContour 1000 1000 (initAcc 1000 1000) ex99 = initAcc 1000 1000 ∧
    (accumContour 1000 1000 (initAcc 1000 1000) cLeft).largeContours =
      (initAcc 1000 1000).largeContours + 1 ∧
    (accumContour 1000 1000 (initAcc 1000 1000) ex101).largeContours =
      (initAcc 1000 1000).largeContours + 1 :=
  ⟨(c3_noise_threshold_boundary 1000 1000 (initAcc 1000 1000) ex99).1 (by decide),
   (c3_noise_threshold_boundary 1000 1000 (initAcc 1000 1000) cLeft).2.1 (by decide),
   (c3_noise_threshold_boundary 1000 1000 (initAcc 1000 1000) ex101).2.2 (by decide)⟩

/-- Counterexample to claim C3: a contour with point count exactly 100
is included, not excluded: it is counted as a large contour and its
points move every accumulator field. -/
theorem c3_counterexample :
    cLeft.points.length = 100 ∧
    accumContour 1000 1000 (initAcc 1000 1000) cLeft = ⟨10, 100, 150, 199, 1⟩ := by
  decide

/-- Claim C5 (amended): the binary mask marks pixel (x, y) as ink iff
its intensity is strictly below the cutoff 200 and it is outside the
exclusion zone x < 200 ∧ y < 200.  In particular a pixel at (50, 50) is
never marked as ink, and under the spec's contract for the external
contour extraction it appears in no Region, so it never reaches the
bounding-box accumulator; a below-threshold pixel at (201, 201) is
marked as ink, and it contributes to the accumulated maxima whenever it
reaches the accumulator (that is, whenever it lies in-range in a Region
that survives the noise filter). -/
theorem c5_mask_exclusion (gray : Nat → Nat → Nat) (w h : Nat) (cs : List Contour) :
    (∀ x y, isInk gray x y = true ↔
      (gray x y < threshold ∧ ¬(x < uiExcludeX ∧ y < uiExcludeY))) ∧
    isInk gray 50 50 = false ∧
    (gray 201 201 < threshold → isInk gray 201 201 = true) ∧
    (validContours gray w h cs → ∀ c ∈ cs, Point.mk 50 50 ∉ c.points) ∧
    (Point.mk 201 201 ∈ keptPoints w h cs →
      201 ≤ (accumAll w h cs).maxX ∧ 201 ≤ (accumAll w h cs).maxY) := by
  refine ⟨isInk_eq_true_iff gray, ?_, ?_, ?_, ?_⟩
  · rw [isInk, binaryPixel, if_pos (by decide)]
    rfl
  · intro ht
    rw [isInk_eq_true_iff]
    exact ⟨ht, by decide⟩
  · intro hv c hc hp
    have hink := (hv c hc (Point.mk 50 50) hp).2.2.2.2
    rw [isInk_eq_true_iff] at hink
    exact hink.2 (by decide)
  · intro hmem
    have hx : (201 : Nat) ∈ keptXs w h cs := by
      rw [keptXs_eq_map]
      exact List.mem_map.mpr ⟨Point.mk 201 201, hmem, rfl⟩
    have hy : (201 : Nat) ∈ keptYs w h cs := by
      rw [keptYs_eq_map]
      exact List.mem_map.mpr ⟨Point.mk 201 201, hmem, rfl⟩
    rw [accumAll_eq]
    exact ⟨mem_le_foldl_max _ _ hx, mem_le_foldl_max _ _ hy⟩

/-- Witness for claim C5: an all-dark image and a surviving 101-point
Region containing (201, 201). -/
theorem c5_witness :
    isInk (fun _ _ => 0) 50 50 = false ∧
    isInk (fun _ _ => 0) 201 201 = true ∧
    (∀ c ∈ [c201], Point.mk 50 50 ∉ c.points) ∧
    (201 ≤ (accumAll 1000 1000 [c201]).maxX ∧
      201 ≤ (accumAll 1000 1000 [c201]).maxY) :=
  ⟨(c5_mask_exclusion (fun _ _ => 0) 1000 1000 [c201]).2.1,
   (c5_mask_exclusion (fun _ _ => 0) 1000 1000 [c201]).2.2.1 (by decide),
   (c5_mask_exclusion (fun _ _ => 0) 1000 1000 [c201]).2.2.2.1
     (by unfold validContours; decide),
   (c5_mask_exclusion (fun _ _ => 0) 1000 1000 [c201]).2.2.2.2 (by decide)⟩

/-- Counterexample to claim C5's last clause: an image whose only
below-threshold pixel is (201, 201), with the single one-point Region
the extraction contract yields for it.  The Region is discarded by the
noise filter, the accumulator is left at its initial values and no
BoundingBox is emitted at all, so this below-threshold pixel at
(201, 201) does not contribute to any BoundingBox. -/
theorem c5_counterexample :
    (fun x y => if x = 201 ∧ y = 201 then 0 else 255 : Nat → Nat → Nat) 201 201
      < threshold ∧
    validContours (fun x y => if x = 201 ∧ y = 201 then 0 else 255) 1000 1000
      [Contour.mk [Point.mk 201 201]] ∧
    accumAll 1000 1000 [Contour.mk [Point.mk 201 201]] = initAcc 1000 1000 ∧
    extractBox 1000 1000 [Contour.mk [Point.mk 201 201]] = none := by
  refine ⟨by decide, ?_, by decide, by decide⟩
  intro c hc p hp
  rw [List.mem_singleton.mp hc] at hp
  rw [List.mem_singleton.mp hp]
  exact ⟨by decide, by decide, by decide, by decide, by decide⟩

/-- Claim C4 (confirmed): under the spec's contract for the external
contour extraction, an all-background decoded image (no pixel below the
threshold) yields Regions with no points, every Region is discarded by
the noise filter, and the run ends in the NoSignificantContent outcome
(no box, hence no cropped file); moreover a crop is emitted only when
min_x < max_x, min_y < max_y and at least one Region survived the noise
filter. -/
theorem c4_no_content_guard (gray : Nat → Nat → Nat) (w h : Nat) (cs : List Contour) :
    ((∀ x y, x < w → y < h → ¬ gray x y < threshold) → validContours gray w h cs →
      extractBox w h cs = none) ∧
    (∀ b, extractBox w h cs = some b →
      b.minX < b.maxX ∧ b.minY < b.maxY ∧ 0 < (accumAll w h cs).largeContours) := by
  constructor
  · intro hbg hv
    have hpts : ∀ c ∈ cs, c.points = [] := by
      intro c hc
      cases hcp : c.points with
      | nil => rfl
      | cons p ps =>
        have h1 := hv c hc p (by rw [hcp]; exact List.mem_cons_self p ps)
        obtain ⟨hx0, hy0, hxw, hyh, hink⟩ := h1
        rw [isInk_eq_true_iff] at hink
        have hxlt : p.x.toNat < w := by omega
        have hylt : p.y.toNat < h := by omega
        exact absurd hink.1 (hbg _ _ hxlt hylt)
    have hsurv : cs.filter survives = [] := by
      rw [List.filter_eq_nil]
      intro c hc
      rw [survives, hpts c hc]
      decide
    simp only [extractBox, accumAll_eq, hsurv]
    simp
  · intro b hb
    obtain ⟨hbe, h1, h2, h3⟩ := extractBox_eq_some hb
    subst hbe
    exact ⟨h1, h2, h3⟩

/-- Witness for claim C4: an all-background image with no Regions, and
an emitting run whose guard conditions the theorem then yields. -/
theorem c4_witness :
    extractBox 5 5 ([] : List Contour) = none ∧
    0 < (accumAll 1000 1000 [cLeft]).largeContours :=
  ⟨(c4_no_content_guard (fun _ _ => 255) 5 5 []).1
     (by intro x y hx hy; decide)
     (by intro c hc; exact absurd hc (List.not_mem_nil c)),
   ((c4_no_content_guard (fun _ _ => 255) 1000 1000 [cLeft]).2
     ⟨0, 50, 200, 249⟩ (by decide)).2.2⟩

/-- Claim C7 (amended): when a crop is emitted, the box is the min/max
reduction over the surviving Regions' in-range points joined with the
accumulator's initial values (minima seeded with the image width and
height, maxima seeded with 150 and 0), expanded by exactly 50 on each
side and clamped to [0, w-1] x [0, h-1]; the crop rectangle's extents
are max_x-min_x+1 by max_y-min_y+1 and the crop is taken from the
original (non-binarized) decoded image. -/
theorem c7_emitted_box (orig : Nat → Nat → Nat) (w h : Nat) (cs : List Contour)
    (b : BBox) (hb : extractBox w h cs = some b) :
    b = amendedBox w h cs ∧
    emittedCrop w h cs = some (emitCrop b) ∧
    (emitCrop b).w = b.maxX - b.minX + 1 ∧
    (emitCrop b).h = b.maxY - b.minY + 1 ∧
    (∀ i j, cropPixel orig (emitCrop b) i j = orig (b.minX + i) (b.minY + j)) := by
  obtain ⟨hbe, -, -, -⟩ := extractBox_eq_some hb
  refine ⟨?_, ?_, rfl, rfl, fun i j => rfl⟩
  · rw [hbe, accumAll_eq]
    rfl
  · rw [emittedCrop, hb]
    rfl

/-- Witness for claim C7 at a concrete emitting run. -/
theorem c7_witness :
    (⟨0, 50, 200, 249⟩ : BBox) = amendedBox 1000 1000 [cLeft] ∧
    cropPixel (fun x y => 1000 * x + y) (emitCrop ⟨0, 50, 200, 249⟩) 3 4 =
      1000 * (0 + 3) + (50 + 4) :=
  ⟨(c7_emitted_box (fun x y => 1000 * x + y) 1000 1000 [cLeft]
      ⟨0, 50, 200, 249⟩ (by decide)).1,
   (c7_emitted_box (fun x y => 1000 * x + y) 1000 1000 [cLeft]
      ⟨0, 50, 200, 249⟩ (by decide)).2.2.2.2 3 4⟩

/-- Counterexample to claim C7: a single surviving 100-point Region
entirely at x = 10.  The min/max reduction over the surviving Region's
points gives max x 10, so the claim's box would have right edge
10 + 50 = 60; the emitted box's right edge is 200, inherited from the
accumulator's initial max_x = 150 plus padding. -/
theorem c7_counterexample :
    extractBox 1000 1000 [cLeft] = some ⟨0, 50, 200, 249⟩ ∧
    (cLeft.points.map (fun p => p.x.toNat)).foldl max 0 + padding = 60 ∧
    (200 : Nat) ≠ 60 := by
  decide

/-- Claim C9 (confirmed): because the accumulator initializes max_x to
150 and 50 pixels of padding are added before clamping to w-1, every
emitted box has right edge at least min 200 (w-1) — for every input,
even when all surviving Regions lie entirely left of x = 150. -/
theorem c9_right_edge_lower_bound (w h : Nat) (cs : List Contour) (b : BBox)
    (hb : extractBox w h cs = some b) :
    min 200 (w - 1) ≤ b.maxX := by
  obtain ⟨hbe, -, -, -⟩ := extractBox_eq_some hb
  have h150 : 150 ≤ (accumAll w h cs).maxX := by
    rw [accumAll_eq]
    exact le_foldl_max _ _
  have hmx : b.maxX = min ((accumAll w h cs).maxX + padding) (w - 1) := by
    rw [hbe]
    rfl
  rw [hmx]
  have hpad : padding = 50 := rfl
  exact min_le_min (by omega) (le_refl _)

/-- Witness for claim C9 at a concrete emitting run whose surviving
Region lies entirely left of x = 150. -/
theorem c9_witness : min 200 (1000 - 1) ≤ (⟨0, 50, 200, 249⟩ : BBox).maxX :=
  c9_right_edge_lower_bound 1000 1000 [cLeft] ⟨0, 50, 200, 249⟩ (by decide)

/-- Claim C10 (confirmed): points failing the in-range guard (negative
coordinate, or x ≥ width, or y ≥ height) are skipped: bounding-box
accumulation over any point list equals accumulation over only its
in-range points, so out-of-range points never influence any of the four
extrema; and every visualization put_pixel write targets in-range
coordinates, so no out-of-bounds pixel access occurs. -/
theorem c10_out_of_range_skipped (w h : Nat) (cs : List Contour) :
    (∀ (a : BBoxAcc) (ps : List Point),
      ps.foldl (accumPoint w h) a =
        (ps.filter (inBounds w h)).foldl (accumPoint w h) a) ∧
    (∀ q ∈ visWrites w h cs, q.1 < w ∧ q.2 < h) := by
  constructor
  · intro a ps
    induction ps generalizing a with
    | nil => rfl
    | cons p ps ih =>
      rw [List.foldl_cons, List.filter_cons]
      cases hbp : inBounds w h p with
      | true =>
        rw [if_pos rfl, List.foldl_cons, ih]
      | false =>
        rw [if_neg (by simp)]
        have hap : accumPoint w h a p = a := by
          rw [accumPoint, hbp]
          rfl
        rw [hap, ih]
  · intro q hq
    rw [visWrites] at hq
    obtain ⟨p, hp, hq1⟩ := List.mem_map.mp hq
    rw [keptPoints] at hp
    obtain ⟨c, hc, hpc⟩ := List.mem_flatMap.mp hp
    have hfb := (List.mem_filter.mp hpc).2
    rw [inBounds] at hfb
    obtain ⟨h1, h2, h3, h4⟩ := of_decide_eq_true hfb
    rw [← hq1]
    exact ⟨by omega, by omega⟩

/-- Witness for claim C10 at a concrete visualization write. -/
theorem c10_witness : (201 : Nat) < 1000 ∧ (201 : Nat) < 1000 :=
  (c10_out_of_range_skipped 1000 1000 [c201]).2 (201, 201) (by decide)

end Resnap
